import Mathlib

/-!
Shallow embedding of the view-state and coordinate-transform core of the
`gui_test` fractal viewer (src/app/mod.rs, src/app/fractal_gl.rs).

Machine floating-point (`f32`) arithmetic is modelled by exact rationals,
so the constants `1.1`, `0.9`, `1.2`, `0.5` become `11/10`, `9/10`, `6/5`,
`1/2`.  The per-frame interaction logic of `FractalApp::custom_painting`
is split, exactly as in the source, into the scroll/click priority chain
(`gestureStep`, the if/else-if ladder) followed by the independent drag
rule (`dragStep`).  The GL side effects of `FractalGl::paint` are
embedded as the ordered list of named uniform bindings it issues.
-/

namespace GuiTest

/-- Screen-space point, egui `Pos2`. -/
structure Pos2 where
  x : ℚ
  y : ℚ
deriving DecidableEq, Repr

/-- 2-D vector, egui `Vec2` (used for `smooth_scroll_delta` and `drag_delta`). -/
structure Vec2 where
  x : ℚ
  y : ℚ
deriving DecidableEq, Repr

/-- egui `Vec2::length_sq`: squared magnitude. -/
def Vec2.length_sq (v : Vec2) : ℚ := v.x * v.x + v.y * v.y

/-- egui `Vec2 * f32` componentwise scaling (used for `drag_delta * pixels_per_point`). -/
def Vec2.scale (v : Vec2) (k : ℚ) : Vec2 := ⟨v.x * k, v.y * k⟩

/-- Modelled from the spec: `src/app/position.rs` is not among the sources.
Spec §4.1 `to_centered_space`: a screen pixel position translated into a
coordinate system with an implementation-defined origin, where only
differences of outputs are meaningful and `pixels_per_point` converts
logical UI points to physical pixels.  We model the origin as the screen
origin, i.e. pure scaling by `pixels_per_point`. -/
structure Position where
  x : ℚ
  y : ℚ
deriving DecidableEq, Repr

/-- Modelled from the spec: `Position::from_screen_space(pixels_per_point, p)`
scales the screen point by `pixels_per_point` (spec §4.1). -/
def Position.from_screen_space (pixels_per_point : ℚ) (p : Pos2) : Position :=
  ⟨p.x * pixels_per_point, p.y * pixels_per_point⟩

/-- Modelled from the spec: componentwise difference of `Position`s
(the `current_center - new_center_screen` operation in `custom_painting`). -/
def Position.sub (a b : Position) : Position := ⟨a.x - b.x, a.y - b.y⟩

/-- Modelled from the spec: division of a `Position` by a scalar
(the `/ self.state.zoom` operation in `custom_painting`). -/
def Position.divScalar (a : Position) (k : ℚ) : Position := ⟨a.x / k, a.y / k⟩

/-- Modelled from the spec: `src/app/state.rs` is not among the sources.
Spec §3: `fractal_type: enum{Mandelbrot, Julia}`. -/
inductive FractalType where
  | Mandelbrot
  | Julia
deriving DecidableEq, Repr

/-- Modelled from the spec: the stable integer codes of the enum
(`state.fractal_type as i32` in `FractalGl::paint`), ordinals in
declaration order. -/
def FractalType.code : FractalType → Int
  | .Mandelbrot => 0
  | .Julia => 1

/-- Modelled from the spec: `src/app/state.rs` is not among the sources.
Spec §3 `ViewState`: zoom, center position, Julia constant, fractal type,
quality flag and six independent color parameters.  Field names follow
the uses in `mod.rs` and `fractal_gl.rs`. -/
structure State where
  zoom : ℚ
  center_position : Position
  c_julia : Position
  fractal_type : FractalType
  high_quality : Bool
  brightness : ℚ
  gamma : ℚ
  contrast : ℚ
  r : ℚ
  g : ℚ
  b : ℚ
deriving DecidableEq, Repr

/-- One frame's input sample as read inside `custom_painting`:
`ui.input(|i| i.smooth_scroll_delta)`, the `response` click/double-click
queries per mouse button, the optional `interact_pointer_pos`, the drag
state, and the UI scale factor `pixels_per_point`. -/
structure InputSample where
  smooth_scroll_delta : Vec2
  double_clicked_primary : Bool
  clicked_primary : Bool
  double_clicked_secondary : Bool
  interact_pointer_pos : Option Pos2
  dragged : Bool
  drag_delta : Vec2
  pixels_per_point : ℚ
deriving DecidableEq, Repr

/-- The scroll/click priority chain of `custom_painting`
(src/app/mod.rs lines 168-205): a single if/else-if ladder, so at most
the first rule whose condition holds fires.  `rect_center` is
`rect.center()` of the allocated canvas rectangle. -/
def gestureStep (state : State) (rect_center : Pos2) (i : InputSample) : State :=
  if i.smooth_scroll_delta.y > 0 then
    { state with zoom := state.zoom * (11/10) }
  else if i.smooth_scroll_delta.y < 0 then
    { state with zoom := state.zoom * (9/10) }
  else if i.double_clicked_primary then
    { state with zoom := state.zoom * (6/5) }
  else if i.clicked_primary then
    let new_center_screen := Position.from_screen_space i.pixels_per_point
      (i.interact_pointer_pos.getD ⟨0, 0⟩)
    let current_center := Position.from_screen_space i.pixels_per_point rect_center
    let diff_gl_space := (current_center.sub new_center_screen).divScalar state.zoom
    { state with center_position :=
        ⟨state.center_position.x + diff_gl_space.x,
         state.center_position.y - diff_gl_space.y⟩ }
  else if i.double_clicked_secondary then
    { state with zoom := state.zoom / (6/5) }
  else
    state

/-- The drag rule of `custom_painting` (src/app/mod.rs lines 207-213),
evaluated after and independently of the priority chain. -/
def dragStep (state : State) (i : InputSample) : State :=
  if i.dragged ∧ i.drag_delta.length_sq > 0 then
    let drag_in_gl_space := i.drag_delta.scale i.pixels_per_point
    { state with center_position :=
        ⟨state.center_position.x + drag_in_gl_space.x / state.zoom,
         state.center_position.y - drag_in_gl_space.y / state.zoom⟩ }
  else
    state

/-- The full state update performed by one call of
`FractalApp::custom_painting`: the priority chain, then the drag rule. -/
def custom_painting (state : State) (rect_center : Pos2) (i : InputSample) : State :=
  dragStep (gestureStep state rect_center i) i

/-- Value carried by one GL uniform binding in `FractalGl::paint`:
`uniform_1_f32`, `uniform_1_i32` or `uniform_2_f32`. -/
inductive UniformValue where
  | scalar (v : ℚ)
  | int (v : Int)
  | vec2 (x y : ℚ)
deriving DecidableEq, Repr

/-- The viewport rectangle in physical pixels
(`paint_info.viewport_in_pixels()`, egui `ViewportInPixels`). -/
structure ViewportInPixels where
  left_px : Int
  top_px : Int
  width_px : Int
  height_px : Int
deriving DecidableEq, Repr

/-- The ordered list of named uniform bindings issued by one call of
`FractalGl::paint` (src/app/fractal_gl.rs lines 87-144): the seven scalar
mappings, the two integer flags, then `u_fractalPosition` and `u_cJulia`. -/
def paint (state : State) (viewport : ViewportInPixels) : List (String × UniformValue) :=
  [("u_fractalZoom", .scalar state.zoom),
   ("u_brightness", .scalar state.brightness),
   ("u_gamma", .scalar state.gamma),
   ("u_contrast", .scalar state.contrast),
   ("u_r", .scalar state.r),
   ("u_g", .scalar state.g),
   ("u_b", .scalar state.b),
   ("u_highQuality", .int (if state.high_quality then 1 else 0)),
   ("u_fractal_type", .int state.fractal_type.code),
   ("u_fractalPosition", .vec2
     (state.center_position.x + (viewport.left_px : ℚ) / state.zoom
       + (1/2) * (viewport.width_px : ℚ) / state.zoom)
     (state.center_position.y + (viewport.top_px : ℚ) / state.zoom
       + (1/2) * (viewport.height_px : ℚ) / state.zoom)),
   ("u_cJulia", .vec2 state.c_julia.x state.c_julia.y)]

/-- A concrete well-formed state used to instantiate hypotheses. -/
def testState : State :=
  { zoom := 2
    center_position := ⟨0, 0⟩
    c_julia := ⟨1/10, 1/5⟩
    fractal_type := .Julia
    high_quality := true
    brightness := 1
    gamma := 1
    contrast := 1
    r := 1/2
    g := 1/2
    b := 1/2 }

/-- The empty input sample: no scroll, no clicks, no drag. -/
def noInput : InputSample :=
  { smooth_scroll_delta := ⟨0, 0⟩
    double_clicked_primary := false
    clicked_primary := false
    double_clicked_secondary := false
    interact_pointer_pos := none
    dragged := false
    drag_delta := ⟨0, 0⟩
    pixels_per_point := 1 }

/-- An input sample carrying only a vertical scroll delta `d`. -/
def scrollInput (d : ℚ) : InputSample :=
  { noInput with smooth_scroll_delta := ⟨0, d⟩ }

/-- A frame containing only a primary-button double-click. -/
def dcPrimaryInput : InputSample :=
  { noInput with double_clicked_primary := true }

/-- A frame containing only a secondary-button double-click. -/
def dcSecondaryInput : InputSample :=
  { noInput with double_clicked_secondary := true }

/-- Fold a sequence of scroll-only frames through `custom_painting`. -/
def applyScrolls (l : List ℚ) (s : State) (rc : Pos2) : State :=
  l.foldl (fun st d => custom_painting st rc (scrollInput d)) s

/-- The zoom factor applied by a scroll-only frame with vertical delta `d`. -/
def scrollFactor (d : ℚ) : ℚ :=
  if 0 < d then 11/10 else if d < 0 then 9/10 else 1

/-- C1: Gesture priority per frame.  For every input sample the priority
chain applies exactly the first rule whose condition holds and skips all
later rules: a positive vertical scroll delta gives exactly the scroll-up
update and makes the whole frame identical to the frame with every click
flag cleared; a negative delta likewise gives exactly the scroll-down
update; at zero delta a primary double-click gives exactly the `* 6/5`
zoom update whatever the click flags; otherwise a primary click gives
exactly the recenter update whatever the secondary flag; otherwise a
secondary double-click gives exactly the `/ (6/5)` zoom update; and with
no condition holding the chain is the identity. -/
theorem gesture_priority_chain (s : State) (rc : Pos2) (i : InputSample) :
    (0 < i.smooth_scroll_delta.y →
      gestureStep s rc i = { s with zoom := s.zoom * (11/10) } ∧
      custom_painting s rc i =
        custom_painting s rc
          { i with clicked_primary := false, double_clicked_primary := false,
                   double_clicked_secondary := false }) ∧
    (i.smooth_scroll_delta.y < 0 →
      gestureStep s rc i = { s with zoom := s.zoom * (9/10) } ∧
      custom_painting s rc i =
        custom_painting s rc
          { i with clicked_primary := false, double_clicked_primary := false,
                   double_clicked_secondary := false }) ∧
    (i.smooth_scroll_delta.y = 0 → i.double_clicked_primary = true →
      gestureStep s rc i = { s with zoom := s.zoom * (6/5) }) ∧
    (i.smooth_scroll_delta.y = 0 → i.double_clicked_primary = false →
      i.clicked_primary = true →
      gestureStep s rc i =
        { s with center_position :=
            ⟨s.center_position.x +
               (((Position.from_screen_space i.pixels_per_point rc).sub
                   (Position.from_screen_space i.pixels_per_point
                     (i.interact_pointer_pos.getD ⟨0, 0⟩))).divScalar s.zoom).x,
             s.center_position.y -
               (((Position.from_screen_space i.pixels_per_point rc).sub
                   (Position.from_screen_space i.pixels_per_point
                     (i.interact_pointer_pos.getD ⟨0, 0⟩))).divScalar s.zoom).y⟩ }) ∧
    (i.smooth_scroll_delta.y = 0 → i.double_clicked_primary = false →
      i.clicked_primary = false → i.double_clicked_secondary = true →
      gestureStep s rc i = { s with zoom := s.zoom / (6/5) }) ∧
    (i.smooth_scroll_delta.y = 0 → i.double_clicked_primary = false →
      i.clicked_primary = false → i.double_clicked_secondary = false →
      gestureStep s rc i = s) := by
  refine ⟨fun h => ⟨?_, ?_⟩, fun h => ⟨?_, ?_⟩, fun h0 hdc => ?_,
    fun h0 hdc hc => ?_, fun h0 hdc hc hds => ?_, fun h0 hdc hc hds => ?_⟩
  · simp [gestureStep, h]
  · simp [custom_painting, gestureStep, dragStep, h]
  · simp [gestureStep, h, asymm h]
  · simp [custom_painting, gestureStep, dragStep, h, asymm h]
  · simp [gestureStep, h0, hdc]
  · simp [gestureStep, h0, hdc, hc]
  · simp [gestureStep, h0, hdc, hc, hds]
  · simp [gestureStep, h0, hdc, hc, hds]

/-- A concrete sample carrying both a scroll-up delta and a primary click. -/
def scrollAndClickInput : InputSample :=
  { noInput with smooth_scroll_delta := ⟨0, 1⟩, clicked_primary := true }

/-- A concrete sample carrying both a primary double-click and a primary
click (the second click of a double-click also registers as a click). -/
def dcAndClickInput : InputSample :=
  { noInput with double_clicked_primary := true, clicked_primary := true }

/-- Witness for C1: at `scrollAndClickInput` the scroll rule wins and the
simultaneous click is ignored, and at `dcAndClickInput` the primary
double-click rule wins over the simultaneous click. -/
theorem gesture_priority_chain_witness :
    (custom_painting testState ⟨0, 0⟩ scrollAndClickInput =
      custom_painting testState ⟨0, 0⟩
        { scrollAndClickInput with
          clicked_primary := false
          double_clicked_primary := false
          double_clicked_secondary := false }) ∧
    gestureStep testState ⟨0, 0⟩ dcAndClickInput =
      { testState with zoom := testState.zoom * (6/5) } :=
  ⟨((gesture_priority_chain testState ⟨0, 0⟩ scrollAndClickInput).1
      (by decide)).2,
   (gesture_priority_chain testState ⟨0, 0⟩ dcAndClickInput).2.2.1 rfl rfl⟩

/-- C2: Single-click recenter.  On a frame with zero vertical scroll delta,
no primary double-click, and a primary click, the priority chain updates
`center_position` by `diff = (P_centered - Q_centered) / zoom` with
`center.x += diff.x` and `center.y -= diff.y`, where `P` is the viewport's
geometric center, `Q` is the pointer position defaulting to screen `(0,0)`
when missing, and both are mapped through `Position.from_screen_space`;
clicking exactly at the viewport center leaves `center_position`
unchanged, and the zoom is untouched. -/
theorem single_click_recenter (s : State) (rc : Pos2) (i : InputSample)
    (hz : 0 < s.zoom) (hscroll : i.smooth_scroll_delta.y = 0)
    (hdc : i.double_clicked_primary = false) (hc : i.clicked_primary = true) :
    ((gestureStep s rc i).center_position.x =
        s.center_position.x +
          (((Position.from_screen_space i.pixels_per_point rc).sub
              (Position.from_screen_space i.pixels_per_point
                (i.interact_pointer_pos.getD ⟨0, 0⟩))).divScalar s.zoom).x ∧
      (gestureStep s rc i).center_position.y =
        s.center_position.y -
          (((Position.from_screen_space i.pixels_per_point rc).sub
              (Position.from_screen_space i.pixels_per_point
                (i.interact_pointer_pos.getD ⟨0, 0⟩))).divScalar s.zoom).y) ∧
    (i.interact_pointer_pos = some rc →
      (gestureStep s rc i).center_position = s.center_position) ∧
    (gestureStep s rc i).zoom = s.zoom := by
  refine ⟨⟨?_, ?_⟩, ?_, ?_⟩ <;>
    simp [gestureStep, hscroll, hdc, hc, Position.sub, Position.divScalar]
  intro hp
  simp [hp, Position.from_screen_space]

/-- A concrete sample carrying only a primary click at screen point `(1, 2)`. -/
def clickInput : InputSample :=
  { noInput with clicked_primary := true, interact_pointer_pos := some ⟨1, 2⟩ }

/-- Witness for C2 at the concrete sample `clickInput` in a viewport
centered at `(4, 4)`. -/
theorem single_click_recenter_witness :
    (0 < testState.zoom ∧ clickInput.smooth_scroll_delta.y = 0 ∧
     clickInput.double_clicked_primary = false ∧ clickInput.clicked_primary = true) ∧
    (((gestureStep testState ⟨4, 4⟩ clickInput).center_position.x =
        testState.center_position.x +
          (((Position.from_screen_space clickInput.pixels_per_point ⟨4, 4⟩).sub
              (Position.from_screen_space clickInput.pixels_per_point
                (clickInput.interact_pointer_pos.getD ⟨0, 0⟩))).divScalar
            testState.zoom).x ∧
      (gestureStep testState ⟨4, 4⟩ clickInput).center_position.y =
        testState.center_position.y -
          (((Position.from_screen_space clickInput.pixels_per_point ⟨4, 4⟩).sub
              (Position.from_screen_space clickInput.pixels_per_point
                (clickInput.interact_pointer_pos.getD ⟨0, 0⟩))).divScalar
            testState.zoom).y) ∧
    (clickInput.interact_pointer_pos = some ⟨4, 4⟩ →
      (gestureStep testState ⟨4, 4⟩ clickInput).center_position =
        testState.center_position) ∧
    (gestureStep testState ⟨4, 4⟩ clickInput).zoom = testState.zoom) :=
  ⟨⟨by decide, rfl, rfl, rfl⟩,
   single_click_recenter testState ⟨4, 4⟩ clickInput (by decide) rfl rfl rfl⟩

/-- C3: Viewport-to-fractal-center formula.  The `u_fractalPosition`
binding issued by `paint` equals, per axis,
`center + viewport_origin_px / zoom + 0.5 * viewport_size_px / zoom`;
with the zero viewport it is exactly `center_position`, and with origin
`0` and size `(w, h)` it is `center + 0.5 * size / zoom`. -/
theorem fractal_center_for_viewport (s : State) (v : ViewportInPixels)
    (hz : 0 < s.zoom) :
    (paint s v).lookup "u_fractalPosition" =
      some (.vec2
        (s.center_position.x + (v.left_px : ℚ) / s.zoom
          + (1/2) * (v.width_px : ℚ) / s.zoom)
        (s.center_position.y + (v.top_px : ℚ) / s.zoom
          + (1/2) * (v.height_px : ℚ) / s.zoom)) ∧
    (paint s ⟨0, 0, 0, 0⟩).lookup "u_fractalPosition" =
      some (.vec2 s.center_position.x s.center_position.y) ∧
    (∀ w h : Int, (paint s ⟨0, 0, w, h⟩).lookup "u_fractalPosition" =
      some (.vec2 (s.center_position.x + (1/2) * (w : ℚ) / s.zoom)
                  (s.center_position.y + (1/2) * (h : ℚ) / s.zoom))) := by
  refine ⟨?_, ?_, fun w h => ?_⟩ <;> simp [paint, List.lookup]

/-- Witness for C3 at `testState` and the viewport `(3, 4, 100, 60)`. -/
theorem fractal_center_for_viewport_witness :
    0 < testState.zoom ∧
    ((paint testState ⟨3, 4, 100, 60⟩).lookup "u_fractalPosition" =
      some (.vec2
        (testState.center_position.x + ((3 : Int) : ℚ) / testState.zoom
          + (1/2) * ((100 : Int) : ℚ) / testState.zoom)
        (testState.center_position.y + ((4 : Int) : ℚ) / testState.zoom
          + (1/2) * ((60 : Int) : ℚ) / testState.zoom)) ∧
    (paint testState ⟨0, 0, 0, 0⟩).lookup "u_fractalPosition" =
      some (.vec2 testState.center_position.x testState.center_position.y) ∧
    (∀ w h : Int, (paint testState ⟨0, 0, w, h⟩).lookup "u_fractalPosition" =
      some (.vec2 (testState.center_position.x + (1/2) * (w : ℚ) / testState.zoom)
                  (testState.center_position.y
                    + (1/2) * (h : ℚ) / testState.zoom)))) :=
  ⟨by decide, fractal_center_for_viewport testState ⟨3, 4, 100, 60⟩ (by decide)⟩

/-- C4: Uniform completeness.  One `paint` pass issues exactly the 11 named
uniforms, in source order, and each carries the value specified by the
`State`; the binding is a pure function of the current state and viewport
alone, so there is no dirty-flag skip across frames. -/
theorem uniform_completeness (s : State) (v : ViewportInPixels) :
    ((paint s v).map Prod.fst =
      ["u_fractalZoom", "u_brightness", "u_gamma", "u_contrast", "u_r", "u_g",
       "u_b", "u_highQuality", "u_fractal_type", "u_fractalPosition",
       "u_cJulia"]) ∧
    (paint s v).length = 11 ∧
    (paint s v).lookup "u_fractalZoom" = some (.scalar s.zoom) ∧
    (paint s v).lookup "u_brightness" = some (.scalar s.brightness) ∧
    (paint s v).lookup "u_gamma" = some (.scalar s.gamma) ∧
    (paint s v).lookup "u_contrast" = some (.scalar s.contrast) ∧
    (paint s v).lookup "u_r" = some (.scalar s.r) ∧
    (paint s v).lookup "u_g" = some (.scalar s.g) ∧
    (paint s v).lookup "u_b" = some (.scalar s.b) ∧
    (paint s v).lookup "u_highQuality" =
      some (.int (if s.high_quality then 1 else 0)) ∧
    (paint s v).lookup "u_fractal_type" = some (.int s.fractal_type.code) ∧
    (paint s v).lookup "u_cJulia" = some (.vec2 s.c_julia.x s.c_julia.y) := by
  refine ⟨rfl, rfl, ?_, ?_, ?_, ?_, ?_, ?_, ?_, ?_, ?_, ?_⟩ <;>
    simp [paint, List.lookup]

/-- A scroll-only frame multiplies the zoom by `scrollFactor` of its delta
and changes nothing else. -/
theorem scroll_step_eq (s : State) (rc : Pos2) (d : ℚ) :
    custom_painting s rc (scrollInput d) =
      { s with zoom := s.zoom * scrollFactor d } := by
  rcases lt_trichotomy d 0 with hd | hd | hd
  · simp [custom_painting, gestureStep, dragStep, scrollInput, noInput,
      scrollFactor, hd, asymm hd]
  · subst hd
    simp [custom_painting, gestureStep, dragStep, scrollInput, noInput,
      scrollFactor]
  · simp [custom_painting, gestureStep, dragStep, scrollInput, noInput,
      scrollFactor, hd, asymm hd]

/-- Folding scroll-only frames multiplies the zoom by the product of the
individual scroll factors. -/
theorem applyScrolls_zoom (l : List ℚ) (s : State) (rc : Pos2) :
    (applyScrolls l s rc).zoom = s.zoom * (l.map scrollFactor).prod := by
  induction l generalizing s with
  | nil => simp [applyScrolls]
  | cons d t ih =>
    have h1 : applyScrolls (d :: t) s rc =
        applyScrolls t (custom_painting s rc (scrollInput d)) rc := rfl
    rw [h1, ih, scroll_step_eq]
    simp [mul_assoc]

/-- The drag rule never modifies the zoom. -/
theorem dragStep_zoom (s : State) (i : InputSample) :
    (dragStep s i).zoom = s.zoom := by
  unfold dragStep
  split_ifs <;> rfl

/-- C5: Scroll zoom.  With positive zoom, a sample with positive vertical
scroll delta turns the priority chain into exactly `zoom * 11/10` (all
other fields unchanged) and a negative delta into exactly `zoom * 9/10`;
folding any list of scroll-only frames multiplies the zoom by the product
of the individual factors, so the result is invariant under permutation
of the scroll events. -/
theorem scroll_zoom (s : State) (rc : Pos2) (i : InputSample)
    (hz : 0 < s.zoom) :
    (0 < i.smooth_scroll_delta.y →
      gestureStep s rc i = { s with zoom := s.zoom * (11/10) } ∧
      (custom_painting s rc i).zoom = s.zoom * (11/10)) ∧
    (i.smooth_scroll_delta.y < 0 →
      gestureStep s rc i = { s with zoom := s.zoom * (9/10) } ∧
      (custom_painting s rc i).zoom = s.zoom * (9/10)) ∧
    (∀ l₁ l₂ : List ℚ, l₁.Perm l₂ →
      (applyScrolls l₁ s rc).zoom = (applyScrolls l₂ s rc).zoom) := by
  refine ⟨fun h => ⟨?_, ?_⟩, fun h => ⟨?_, ?_⟩, fun l₁ l₂ hp => ?_⟩
  · simp [gestureStep, h]
  · rw [custom_painting, dragStep_zoom]
    simp [gestureStep, h]
  · simp [gestureStep, h, asymm h]
  · rw [custom_painting, dragStep_zoom]
    simp [gestureStep, h, asymm h]
  · rw [applyScrolls_zoom, applyScrolls_zoom, (hp.map scrollFactor).prod_eq]

/-- Witness for C5 at `testState` and the scroll-only sample with delta 1. -/
theorem scroll_zoom_witness :
    0 < testState.zoom ∧
    ((0 < (scrollInput 1).smooth_scroll_delta.y →
      gestureStep testState ⟨0, 0⟩ (scrollInput 1) =
        { testState with zoom := testState.zoom * (11/10) } ∧
      (custom_painting testState ⟨0, 0⟩ (scrollInput 1)).zoom =
        testState.zoom * (11/10)) ∧
    ((scrollInput 1).smooth_scroll_delta.y < 0 →
      gestureStep testState ⟨0, 0⟩ (scrollInput 1) =
        { testState with zoom := testState.zoom * (9/10) } ∧
      (custom_painting testState ⟨0, 0⟩ (scrollInput 1)).zoom =
        testState.zoom * (9/10)) ∧
    (∀ l₁ l₂ : List ℚ, l₁.Perm l₂ →
      (applyScrolls l₁ testState ⟨0, 0⟩).zoom =
        (applyScrolls l₂ testState ⟨0, 0⟩).zoom)) :=
  ⟨by decide, scroll_zoom testState ⟨0, 0⟩ (scrollInput 1) (by decide)⟩

/-- C6: Drag pan.  With `zoom = z > 0`, `pixels_per_point = p`, a dragged
pointer and nonzero squared drag magnitude, the drag rule shifts the
center by exactly `(dx * p / z, -(dy * p / z))` and leaves the zoom
alone; doubling the zoom halves the shift of the same drag; a drag of
squared magnitude zero changes nothing; and the full frame update is the
drag rule applied after the priority chain, whichever branch fired. -/
theorem drag_pan (s : State) (i : InputSample) (p z : ℚ)
    (hz : 0 < z) (hzs : s.zoom = z) (hp : i.pixels_per_point = p)
    (hd : i.dragged = true) (hlen : 0 < i.drag_delta.length_sq) :
    ((dragStep s i).center_position.x =
        s.center_position.x + i.drag_delta.x * p / z ∧
     (dragStep s i).center_position.y =
        s.center_position.y - i.drag_delta.y * p / z) ∧
    (dragStep s i).zoom = s.zoom ∧
    ((dragStep { s with zoom := 2 * z } i).center_position.x
        - s.center_position.x =
      ((dragStep s i).center_position.x - s.center_position.x) / 2 ∧
     (dragStep { s with zoom := 2 * z } i).center_position.y
        - s.center_position.y =
      ((dragStep s i).center_position.y - s.center_position.y) / 2) ∧
    (∀ j : InputSample, j.drag_delta.length_sq = 0 → dragStep s j = s) ∧
    (∀ rc : Pos2, custom_painting s rc i = dragStep (gestureStep s rc i) i) := by
  subst hzs
  subst hp
  refine ⟨⟨?_, ?_⟩, dragStep_zoom s i, ⟨?_, ?_⟩, fun j hj => ?_, fun rc => rfl⟩
  · simp [dragStep, hd, hlen, Vec2.scale]
  · simp [dragStep, hd, hlen, Vec2.scale]
  · simp [dragStep, hd, hlen, Vec2.scale]
    ring
  · simp [dragStep, hd, hlen, Vec2.scale]
    ring
  · simp [dragStep, hj]

/-- A concrete sample dragging by `(1, 0)` at UI scale 2. -/
def dragInput : InputSample :=
  { noInput with dragged := true, drag_delta := ⟨1, 0⟩, pixels_per_point := 2 }

/-- Witness for C6 at `testState` (zoom 2) and the sample `dragInput`. -/
theorem drag_pan_witness :
    (0 < (2 : ℚ) ∧ testState.zoom = 2 ∧ dragInput.pixels_per_point = 2 ∧
     dragInput.dragged = true ∧ 0 < dragInput.drag_delta.length_sq) ∧
    (((dragStep testState dragInput).center_position.x =
        testState.center_position.x + dragInput.drag_delta.x * 2 / 2 ∧
     (dragStep testState dragInput).center_position.y =
        testState.center_position.y - dragInput.drag_delta.y * 2 / 2) ∧
    (dragStep testState dragInput).zoom = testState.zoom ∧
    ((dragStep { testState with zoom := 2 * 2 } dragInput).center_position.x
        - testState.center_position.x =
      ((dragStep testState dragInput).center_position.x
        - testState.center_position.x) / 2 ∧
     (dragStep { testState with zoom := 2 * 2 } dragInput).center_position.y
        - testState.center_position.y =
      ((dragStep testState dragInput).center_position.y
        - testState.center_position.y) / 2) ∧
    (∀ j : InputSample, j.drag_delta.length_sq = 0 →
      dragStep testState j = testState) ∧
    (∀ rc : Pos2, custom_painting testState rc dragInput =
      dragStep (gestureStep testState rc dragInput) dragInput)) :=
  ⟨⟨by decide, rfl, rfl, rfl, by norm_num [dragInput, noInput, Vec2.length_sq]⟩,
   drag_pan testState dragInput 2 2 (by decide) rfl rfl rfl
     (by norm_num [dragInput, noInput, Vec2.length_sq])⟩

/-- C7: Double-click zoom round-trip.  A frame containing only a primary
double-click followed by a frame containing only a secondary double-click
restores the entire state exactly (`zoom * 6/5 / (6/5) = zoom` in exact
arithmetic). -/
theorem double_click_round_trip (s : State) (rc₁ rc₂ : Pos2) :
    custom_painting (custom_painting s rc₁ dcPrimaryInput) rc₂ dcSecondaryInput
      = s := by
  have h : s.zoom * (6/5) / (6/5) = s.zoom :=
    mul_div_cancel_right₀ _ (by norm_num)
  simp [custom_painting, gestureStep, dragStep, dcPrimaryInput,
    dcSecondaryInput, noInput, h]

/-- C8: Zoom positivity invariant.  Every frame update of the interaction
controller maps a state with positive zoom to a state with positive
zoom. -/
theorem zoom_positive_invariant (s : State) (rc : Pos2) (i : InputSample)
    (hz : 0 < s.zoom) : 0 < (custom_painting s rc i).zoom := by
  rw [custom_painting, dragStep_zoom]
  unfold gestureStep
  split_ifs <;>
    first
      | exact hz
      | exact div_pos hz (by norm_num)
      | exact mul_pos hz (by norm_num)

/-- Witness for C8 at `testState` and the sample `scrollAndClickInput`. -/
theorem zoom_positive_invariant_witness :
    0 < testState.zoom ∧
    0 < (custom_painting testState ⟨0, 0⟩ scrollAndClickInput).zoom :=
  ⟨by decide, zoom_positive_invariant testState ⟨0, 0⟩ scrollAndClickInput
    (by decide)⟩

/-- C9: Gesture frame effect.  Every frame update leaves `c_julia`,
`fractal_type`, `high_quality`, `brightness`, `gamma`, `contrast`, `r`,
`g` and `b` untouched; the drag rule never modifies the zoom; the
scroll-up, scroll-down, primary double-click and secondary double-click
rules leave `center_position` unchanged; and the single-click rule leaves
the zoom unchanged. -/
theorem gesture_frame_effect (s : State) (rc : Pos2) (i : InputSample) :
    ((custom_painting s rc i).c_julia = s.c_julia ∧
     (custom_painting s rc i).fractal_type = s.fractal_type ∧
     (custom_painting s rc i).high_quality = s.high_quality ∧
     (custom_painting s rc i).brightness = s.brightness ∧
     (custom_painting s rc i).gamma = s.gamma ∧
     (custom_painting s rc i).contrast = s.contrast ∧
     (custom_painting s rc i).r = s.r ∧
     (custom_painting s rc i).g = s.g ∧
     (custom_painting s rc i).b = s.b) ∧
    (dragStep s i).zoom = s.zoom ∧
    (i.smooth_scroll_delta.y ≠ 0 →
      (gestureStep s rc i).center_position = s.center_position) ∧
    (i.smooth_scroll_delta.y = 0 → i.double_clicked_primary = true →
      (gestureStep s rc i).center_position = s.center_position) ∧
    (i.smooth_scroll_delta.y = 0 → i.double_clicked_primary = false →
      i.clicked_primary = true → (gestureStep s rc i).zoom = s.zoom) ∧
    (i.smooth_scroll_delta.y = 0 → i.double_clicked_primary = false →
      i.clicked_primary = false → i.double_clicked_secondary = true →
      (gestureStep s rc i).center_position = s.center_position) := by
  refine ⟨?_, dragStep_zoom s i, fun h => ?_, fun h0 hdc => ?_,
    fun h0 hdc hc => ?_, fun h0 hdc hc hds => ?_⟩
  · unfold custom_painting dragStep gestureStep
    split_ifs <;> simp
  · rcases h.lt_or_lt with hy | hy
    · simp [gestureStep, hy, asymm hy]
    · simp [gestureStep, hy]
  · simp [gestureStep, h0, hdc]
  · simp [gestureStep, h0, hdc, hc]
  · simp [gestureStep, h0, hdc, hc, hds]

/-- Witness for C9 at the concrete samples `dcPrimaryInput` (whose
double-click leaves the center alone) and `clickInput` (whose click
leaves the zoom alone). -/
theorem gesture_frame_effect_witness :
    (gestureStep testState ⟨0, 0⟩ dcPrimaryInput).center_position =
      testState.center_position ∧
    (gestureStep testState ⟨0, 0⟩ clickInput).zoom = testState.zoom :=
  ⟨(gesture_frame_effect testState ⟨0, 0⟩ dcPrimaryInput).2.2.2.1 rfl rfl,
   (gesture_frame_effect testState ⟨0, 0⟩ clickInput).2.2.2.2.1 rfl rfl rfl⟩

end GuiTest
